import Mathlib

/-!
Verification of the howser validator (src/validator.rs) against its
natural-language specification.

The development shallowly embeds the matching engine of validator.rs:

* the content matcher (match_contents, tokenize_prompts) is embedded as
  total executable functions over lists of characters;
* the sibling-block matcher (validate_sibling_blocks and its helpers)
  contains loops that do not terminate on all inputs (see the theorems
  about MatchType.None nodes and about repeat markers whose target is
  Optional), so it is embedded fuel-indexed: every function takes a
  Nat fuel argument, returns Option-wrapped results, and yields none
  when the fuel runs out.  A none result models divergence of the Rust
  loop (or propagation of an internal HowserError, which also produces
  no report).

Types that live in files of the repository outside src/ (data.rs,
errors.rs, constants.rs) and the node-tree contract of the external
doogie crate are modelled from the spec; their doc comments say so.
-/

namespace Howser

/-- Modelled from the spec: the node-type taxonomy (spec section 3 and
section 6, doogie NodeType).  Only the types the validator inspects are
carried; heading levels and list kinds are separate fields. -/
inductive NodeType where
  | document
  | blockQuote
  | list
  | item
  | paragraph
  | heading
  | codeBlock
  | emph
  | strong
  | link
  | text
  | code
  | softbreak
deriving DecidableEq, Repr

/-- Modelled from the spec: element categories (spec section 3). -/
inductive ElementType where
  | containerBlock
  | leafBlock
  | inlineContainer
  | inlineLeaf
  | other
deriving DecidableEq, Repr

/-- Modelled from the spec: ElementType::determine of data.rs is not under
src/.  Spec section 3: classification is deterministic per node type;
containers hold blocks, leaf blocks hold inlines, links are validated by
content (spec section 4.9), so they sit among the inline leaves. -/
def elementType : NodeType → ElementType
  | .document => .containerBlock
  | .blockQuote => .containerBlock
  | .list => .containerBlock
  | .item => .containerBlock
  | .paragraph => .leafBlock
  | .heading => .leafBlock
  | .codeBlock => .leafBlock
  | .emph => .inlineContainer
  | .strong => .inlineContainer
  | .link => .inlineLeaf
  | .text => .inlineLeaf
  | .code => .inlineLeaf
  | .softbreak => .other

/-- Modelled from the spec: match types carried by prescription nodes
(spec section 3, data.rs MatchType). -/
inductive MatchType where
  | mandatory
  | optional
  | repeatable
  | none
deriving DecidableEq, Repr

/-- Modelled from the spec: prompt tokens of content strings (spec
section 3, data.rs PromptToken). -/
inductive PromptToken where
  | mandatory
  | optional
  | literal (s : List Char)
  | none
deriving DecidableEq, Repr

/-- Modelled from the spec: a ContentMatchPair (token, bound-or-absent)
(spec section 3, data.rs). -/
structure ContentMatchPair where
  token : PromptToken
  bound : Option (List Char)
deriving DecidableEq, Repr

/-- Modelled from the spec: ContentMatchPair::contains_mismatch of data.rs.
Spec section 4.8: the matcher fails iff some pair has the form
(Mandatory, absent) or (Literal(_), absent). -/
def isMismatchPair : ContentMatchPair → Bool
  | ⟨.mandatory, Option.none⟩ => true
  | ⟨.literal _, Option.none⟩ => true
  | _ => false

/-- Modelled from the spec: whole-sequence mismatch test
(ContentMatchPair::contains_mismatch). -/
def containsMismatch (ps : List ContentMatchPair) : Bool :=
  ps.any isMismatchPair

/-- Modelled from the spec / errors.rs: a diagnostic.  The source fills
most error vectors with nothing (todo comments); the only constructed
diagnostic is the ContentError of validate_general_node_content. -/
inductive Diag where
  | contentError (rxId nodeId : Nat) (pairs : List ContentMatchPair)
deriving DecidableEq, Repr

/-- Modelled from the spec / errors.rs: ValidationReport.  Absent errors
means success; a present (possibly empty) list means failure. -/
structure ValidationReport where
  errors : Option (List Diag)
  warnings : Option (List Diag)
deriving DecidableEq, Repr

/-- A node of a parse tree, together with the per-node data the
prescription provider exposes (spec section 6: match_type and
is_wildcard are total per-node attributes).  Identity is an explicit id
field, used by scan_for_match exactly as the source compares get_id. -/
inductive Node where
  | mk (id : Nat) (ty : NodeType) (headingLevel : Nat) (listKind : Nat)
      (content url title : List Char) (matchType : MatchType)
      (wildcard : Bool) (children : List Node)

def Node.id : Node → Nat
  | .mk i _ _ _ _ _ _ _ _ _ => i

def Node.ty : Node → NodeType
  | .mk _ t _ _ _ _ _ _ _ _ => t

def Node.headingLevel : Node → Nat
  | .mk _ _ h _ _ _ _ _ _ _ => h

def Node.listKind : Node → Nat
  | .mk _ _ _ k _ _ _ _ _ _ => k

def Node.content : Node → List Char
  | .mk _ _ _ _ c _ _ _ _ _ => c

def Node.url : Node → List Char
  | .mk _ _ _ _ _ u _ _ _ _ => u

def Node.title : Node → List Char
  | .mk _ _ _ _ _ _ t _ _ _ => t

def Node.matchType : Node → MatchType
  | .mk _ _ _ _ _ _ _ m _ _ => m

def Node.wildcard : Node → Bool
  | .mk _ _ _ _ _ _ _ _ w _ => w

def Node.children : Node → List Node
  | .mk _ _ _ _ _ _ _ _ _ cs => cs

/-! ## Content matcher: string primitives -/

/-- s is an initial segment of q (character-wise). -/
def startsWith : List Char → List Char → Bool
  | [], _ => true
  | _ :: _, [] => false
  | a :: s, b :: q => a = b && startsWith s q

/-- Leftmost occurrence of s in q (Rust str::find), as a character
index. -/
def strFind : List Char → List Char → Option Nat
  | [], s => if startsWith s [] then some 0 else Option.none
  | q@(_ :: t), s =>
    if startsWith s q then some 0
    else (strFind t s).map (· + 1)

/-- Rightmost occurrence of s in q (Rust str::rfind). -/
def strRFind : List Char → List Char → Option Nat
  | [], s => if startsWith s [] then some 0 else Option.none
  | q@(_ :: t), s =>
    match strRFind t s with
    | some p => some (p + 1)
    | Option.none => if startsWith s q then some 0 else Option.none

/-- Rust str::trim over the character list model. -/
def trim (l : List Char) : List Char :=
  (((l.dropWhile Char.isWhitespace).reverse.dropWhile Char.isWhitespace)).reverse

/-- Modelled from the spec: the default mandatory prompt marker
MANDATORY_PROMPT of constants.rs (spec section 6). -/
def mandatoryMarker : List Char := ['-', '!', '!', '-']

/-- Modelled from the spec: the default optional prompt marker
OPTIONAL_PROMPT of constants.rs (spec section 6). -/
def optionalMarker : List Char := ['-', '?', '?', '-']

/-- Modelled from the spec: CONTENT_PROMPT_PATTERN of constants.rs is a
fixed regular expression matching the mandatory or optional marker (spec
section 4.8); a regex find returns the leftmost occurrence together with
which marker matched. -/
def findPrompt : List Char → Option (Nat × PromptToken)
  | [] => Option.none
  | s@(_ :: t) =>
    if startsWith mandatoryMarker s then some (0, PromptToken.mandatory)
    else if startsWith optionalMarker s then some (0, PromptToken.optional)
    else (findPrompt t).map (fun pt => (pt.1 + 1, pt.2))

/-- The while-loop of tokenize_prompts (validator.rs).  Each iteration
consumes at least the four marker characters, so fuel equal to the
string length plus one makes the fuel-indexed loop total-equivalent to
the Rust loop. -/
def tokenizeLoop : Nat → List Char → List PromptToken
  | 0, _ => []
  | fuel + 1, tail =>
    if tail.isEmpty then []
    else
      match findPrompt tail with
      | some (p, tok) =>
        (if 0 < p then [PromptToken.literal (tail.take p)] else []) ++
          tok :: tokenizeLoop fuel (tail.drop (p + 4))
      | Option.none => [PromptToken.literal tail]

/-- tokenize_prompts of validator.rs: trim, then scan for prompt markers,
turning non-marker spans into Literal tokens. -/
def tokenize_prompts (content : List Char) : List PromptToken :=
  tokenizeLoop ((trim content).length + 1) (trim content)

/-! ## Content matcher: the two-stack bidirectional loop -/

inductive MatchDirection where
  | left
  | right
deriving DecidableEq, Repr

/-- The preface rule of match_contents: a preface pair is pushed iff the
stack is empty or its top is a Literal pair. -/
def prefaceAllowed (stack : List ContentMatchPair) : Bool :=
  match stack.getLast? with
  | some ⟨.literal _, _⟩ => true
  | Option.none => true
  | some _ => false

/-- Push the (optional) preface pair followed by the literal pair, as the
Literal arm of match_contents does. -/
def pushLit (stack : List ContentMatchPair) (preface : Option (List Char))
    (content substitution : List Char) : List ContentMatchPair :=
  (match preface with
   | some p =>
     if prefaceAllowed stack then
       stack ++ [⟨PromptToken.none, some p⟩]
     else stack
   | Option.none => stack) ++ [⟨PromptToken.literal content, some substitution⟩]

/-- One arm of the match_contents loop body: process a single prompt in
the given direction against the content queue, extending the stack of
that direction.  Returns none on a PromptToken.None prompt, which the
source turns into a hard RuntimeError. -/
def prompt_step (dir : MatchDirection) (prompt : PromptToken)
    (q : List Char) (stack : List ContentMatchPair) :
    Option (List Char × List ContentMatchPair) :=
  match prompt with
  | .mandatory =>
    if q.isEmpty then some (q, stack ++ [⟨PromptToken.mandatory, Option.none⟩])
    else
      match dir with
      | .left =>
        some (q.drop 1, stack ++ [⟨PromptToken.mandatory, some (q.take 1)⟩])
      | .right =>
        some (q.dropLast,
          stack ++ [⟨PromptToken.mandatory, some (q.drop (q.length - 1))⟩])
  | .optional => some (q, stack ++ [⟨PromptToken.optional, Option.none⟩])
  | .literal content =>
    match dir with
    | .left =>
      match strFind q content with
      | some n =>
        some (q.drop (n + content.length),
          pushLit stack (if 0 < n then some (q.take n) else Option.none)
            content ((q.drop n).take content.length))
      | Option.none => some (q, stack ++ [⟨PromptToken.literal content, Option.none⟩])
    | .right =>
      match strRFind q content with
      | some n =>
        some (q.take n,
          pushLit stack
            (if content.length < (q.drop n).length then
              some ((q.drop n).drop content.length)
             else Option.none)
            content ((q.drop n).take content.length))
      | Option.none => some (q, stack ++ [⟨PromptToken.literal content, Option.none⟩])
  | .none => Option.none

/-- The while-loop of match_contents: prompts form a deque popped from
the front (Left) or the back (Right), alternating; the fuel is the
number of prompts, which the loop consumes one per iteration. -/
def contents_loop : Nat → List PromptToken → MatchDirection → List Char →
    List ContentMatchPair → List ContentMatchPair →
    Option (List Char × List ContentMatchPair × List ContentMatchPair)
  | _, [], _, q, ls, rs => some (q, ls, rs)
  | 0, _ :: _, _, _, _, _ => Option.none
  | fuel + 1, p :: ps, .left, q, ls, rs =>
    match prompt_step .left p q ls with
    | Option.none => Option.none
    | some (q', ls') => contents_loop fuel ps .right q' ls' rs
  | fuel + 1, p :: ps, .right, q, ls, rs =>
    match prompt_step .right ((p :: ps).getLastD PromptToken.none) q rs with
    | Option.none => Option.none
    | some (q', rs') => contents_loop fuel (p :: ps).dropLast .left q' ls rs'

/-- Is the top of a stack a Literal pair?  Used by the residue rule. -/
def lastLit (stack : List ContentMatchPair) : Bool :=
  match stack.getLast? with
  | some ⟨.literal _, _⟩ => true
  | _ => false

/-- match_contents of validator.rs, already given its token sequence:
run the two-stack loop, then apply the residue rule and concatenate the
left stack before the right stack. -/
def match_contents_tokens (nodeContent : List Char)
    (prompts : List PromptToken) : Option (List ContentMatchPair) :=
  match contents_loop prompts.length prompts .left nodeContent [] [] with
  | Option.none => Option.none
  | some (q, ls, rs) =>
    some ((if !q.isEmpty && (lastLit ls && lastLit rs) then
            ls ++ [⟨PromptToken.none, some q⟩]
           else ls) ++ rs)

/-- match_contents of validator.rs: tokenize the prescription content,
then run the bidirectional two-stack match against the document
content. -/
def match_contents (nodeContent rxContent : List Char) :
    Option (List ContentMatchPair) :=
  match_contents_tokens nodeContent (tokenize_prompts rxContent)

/-! ## Element comparator and per-node content validation -/

/-- types_match of validator.rs: types equal, and heading levels or list
kinds equal where applicable. -/
def types_match (node rx : Node) : Bool :=
  if node.ty = rx.ty then
    if node.ty = NodeType.heading then node.headingLevel = rx.headingLevel
    else if node.ty = NodeType.list then node.listKind = rx.listKind
    else true
  else false

/-- validate_link_node_content of validator.rs: url, title and content
are each content-matched; any mismatch yields a failure carrying an
empty diagnostics vector (the source's todo). -/
def validate_link_node_content (node rx : Node) :
    Option (Option (List Diag)) :=
  match match_contents node.url rx.url, match_contents node.title rx.title,
      match_contents node.content rx.content with
  | some us, some ts, some cs =>
    if containsMismatch us || containsMismatch ts || containsMismatch cs then
      some (some [])
    else some Option.none
  | _, _, _ => Option.none

/-- validate_general_node_content of validator.rs: content-match the two
content strings; a mismatch yields one ContentError diagnostic. -/
def validate_general_node_content (node rx : Node) :
    Option (Option (List Diag)) :=
  match match_contents node.content rx.content with
  | some ps =>
    if containsMismatch ps then
      some (some [Diag.contentError rx.id node.id ps])
    else some Option.none
  | Option.none => Option.none

/-- validate_node_content of validator.rs: Link nodes get the link
comparison, all others the general content comparison. -/
def validate_node_content (node rx : Node) : Option (Option (List Diag)) :=
  if rx.ty = NodeType.link then validate_link_node_content node rx
  else validate_general_node_content node rx

/-! ## Sibling-block matcher

Sibling lists are traversed right-to-left.  A cursor into a sibling
list is represented as the list of the current node followed by its
previous siblings (the children list reversed, then truncated as the
cursor advances); the empty list is an exhausted cursor (Rust's None).
The result of a dispatch step. -/

inductive MatchResult where
  | state (rx node bookmark : List Node)
  | error (errs : List Diag)

mutual

/-- validate_sibling_blocks of validator.rs: start all three cursors at
the last child and run the while-loop over prescription siblings. -/
def validate_sibling_blocks : Nat → Node → Node → Option (Option (List Diag))
  | 0, _, _ => Option.none
  | fuel + 1, parentRx, parentDoc =>
    sbl_loop fuel parentRx.children.reverse parentDoc.children.reverse
      parentDoc.children.reverse

/-- The while-loop of validate_sibling_blocks: dispatch on each
prescription sibling; when the prescription is exhausted, surplus
document siblings produce a failure with an empty diagnostics vector
(the source's todo). -/
def sbl_loop : Nat → List Node → List Node → List Node →
    Option (Option (List Diag))
  | 0, _, _, _ => Option.none
  | fuel + 1, rxCur, nodeCur, bmkCur =>
    match rxCur with
    | [] => some (if nodeCur.isEmpty then Option.none else some [])
    | rx :: rxRest =>
      match consume_block_match fuel rx rxRest nodeCur bmkCur with
      | Option.none => Option.none
      | some (.error errs) => some (some errs)
      | some (.state r n b) => sbl_loop fuel r n b

/-- consume_block_match of validator.rs: dispatch on the match type of
the current prescription node.  The MatchType.None arm returns the
state with the prescription cursor unchanged, exactly as the source
returns rx: Some(rx). -/
def consume_block_match : Nat → Node → List Node → List Node → List Node →
    Option MatchResult
  | 0, _, _, _, _ => Option.none
  | fuel + 1, rx, rxRest, nodeCur, bmkCur =>
    match rx.matchType with
    | .repeatable => consume_repeatable_matches fuel rx rxRest nodeCur bmkCur
    | .mandatory =>
      match bmkCur with
      | [] => some (.error [])
      | _ :: _ => consume_mandatory_block_match fuel rx rxRest nodeCur bmkCur
    | .optional =>
      match consume_optional_block_match fuel rx rxRest nodeCur with
      | Option.none => Option.none
      | some (r, n) => some (.state r n bmkCur)
    | .none => some (.state (rx :: rxRest) nodeCur bmkCur)

/-- consume_repeatable_matches of validator.rs: the target rx is the
repeat marker's previous sibling; loop the dispatch until an iteration
fails, then advance past the target. -/
def consume_repeatable_matches : Nat → Node → List Node → List Node →
    List Node → Option MatchResult
  | 0, _, _, _, _ => Option.none
  | fuel + 1, _, rxRest, nodeCur, bmkCur =>
    match rxRest with
    | [] => some (.error [])
    | target :: rest =>
      match repeat_loop fuel target rest nodeCur bmkCur 0 [] with
      | Option.none => Option.none
      | some (exitNode, count, outBmk) =>
        match count, target.matchType with
        | 0, .mandatory => some (.error [])
        | _, _ => some (.state rest exitNode.tail outBmk)

/-- The inner loop of consume_repeatable_matches: repeatedly dispatch the
target rx; capture the bookmark of the second successful iteration as
the output bookmark; stop on the first failing iteration. -/
def repeat_loop : Nat → Node → List Node → List Node → List Node → Nat →
    List Node → Option (List Node × Nat × List Node)
  | 0, _, _, _, _, _, _ => Option.none
  | fuel + 1, target, rest, nodeCur, bmkCur, count, outBmk =>
    match consume_block_match fuel target rest nodeCur bmkCur with
    | Option.none => Option.none
    | some (.error _) => some (nodeCur, count, outBmk)
    | some (.state _ n b) =>
      repeat_loop fuel target rest n b (count + 1)
        (if count = 1 then b else outBmk)

/-- consume_mandatory_block_match of validator.rs.  In the nominal case
all three cursors advance and the bookmark is recomputed by scanning;
otherwise the scan from the bookmark decides between a rewind and a
missing-mandatory failure (with the source's empty diagnostics
vector). -/
def consume_mandatory_block_match : Nat → Node → List Node → List Node →
    List Node → Option MatchResult
  | 0, _, _, _, _ => Option.none
  | fuel + 1, rx, rxRest, nodeCur, bmkCur =>
    match nodeCur with
    | n :: ns =>
      match block_matches fuel n rx with
      | Option.none => Option.none
      | some true =>
        match scan_for_match fuel bmkCur (some n.id) rx with
        | Option.none => Option.none
        | some (some found) => some (.state rxRest ns found.tail)
        | some Option.none => some (.state rxRest ns [])
      | some false =>
        match scan_for_match fuel bmkCur (some n.id) rx with
        | Option.none => Option.none
        | some (some found) => some (.state rxRest found.tail found.tail)
        | some Option.none => some (.error [])
    | [] =>
      match scan_for_match fuel bmkCur Option.none rx with
      | Option.none => Option.none
      | some (some found) => some (.state rxRest found.tail found.tail)
      | some Option.none => some (.error [])

/-- consume_optional_block_match of validator.rs: a match advances both
cursors, otherwise only the prescription cursor advances. -/
def consume_optional_block_match : Nat → Node → List Node → List Node →
    Option (List Node × List Node)
  | 0, _, _, _ => Option.none
  | fuel + 1, rx, rxRest, nodeCur =>
    match nodeCur with
    | n :: ns =>
      match block_matches fuel n rx with
      | Option.none => Option.none
      | some true => some (rxRest, ns)
      | some false => some (rxRest, n :: ns)
    | [] => some (rxRest, [])

/-- scan_for_match of validator.rs: walk leftward from the start cursor;
return the first sibling matching rx; stop (after the match test) when
the identity of the current sibling equals the stop identity. -/
def scan_for_match : Nat → List Node → Option Nat → Node →
    Option (Option (List Node))
  | 0, _, _, _ => Option.none
  | fuel + 1, cur, stopId, rx =>
    match cur with
    | [] => some Option.none
    | n :: rest =>
      match block_matches fuel n rx with
      | Option.none => Option.none
      | some true => some (some (n :: rest))
      | some false =>
        match stopId with
        | some sid =>
          if n.id = sid then some Option.none
          else scan_for_match fuel rest stopId rx
        | Option.none => scan_for_match fuel rest stopId rx

/-- block_matches of validator.rs: dispatch on the element category of
the prescription node. -/
def block_matches : Nat → Node → Node → Option Bool
  | 0, _, _ => Option.none
  | fuel + 1, node, rx =>
    match elementType rx.ty with
    | .containerBlock => container_block_matches fuel node rx
    | .leafBlock => leaf_block_matches fuel node rx
    | _ => some false

/-- container_block_matches of validator.rs: types_match, then recursive
sibling-block validation of the children.  The source passes (node, rx)
to validate_sibling_blocks, whose parameters are (parent_rx_node,
parent_doc_node): the document node supplies the prescription side of
the recursion.  The failure is forgiven when rx is a wildcard. -/
def container_block_matches : Nat → Node → Node → Option Bool
  | 0, _, _ => Option.none
  | fuel + 1, node, rx =>
    if !types_match node rx then some false
    else
      match validate_sibling_blocks fuel node rx with
      | Option.none => Option.none
      | some cv =>
        match cv, rx.wildcard with
        | some _, false => some false
        | _, _ => some true

/-- leaf_block_matches of validator.rs: types_match, then recursive
sibling-inline validation of the children (prescription side first, as
in the source); the failure is forgiven when rx is a wildcard. -/
def leaf_block_matches : Nat → Node → Node → Option Bool
  | 0, _, _ => Option.none
  | fuel + 1, node, rx =>
    if !types_match node rx then some false
    else
      match validate_sibling_inlines fuel rx node with
      | Option.none => Option.none
      | some cv =>
        match cv, rx.wildcard with
        | some _, false => some false
        | _, _ => some true

/-- validate_sibling_inlines of validator.rs: straight left-to-right
pairwise walk starting at the first children. -/
def validate_sibling_inlines : Nat → Node → Node → Option (Option (List Diag))
  | 0, _, _ => Option.none
  | fuel + 1, parentRx, parentNode =>
    si_loop fuel parentRx.children parentNode.children

/-- The while-loop of validate_sibling_inlines: each prescription inline
must be matched by the document inline at the same position; document
exhaustion while prescription inlines remain is a failure; prescription
exhaustion ends the loop successfully regardless of remaining document
inlines. -/
def si_loop : Nat → List Node → List Node → Option (Option (List Diag))
  | 0, _, _ => Option.none
  | fuel + 1, rxs, nodes =>
    match rxs with
    | [] => some Option.none
    | rx :: rxRest =>
      match nodes with
      | [] => some (some [])
      | n :: ns =>
        match inline_matches fuel rx n with
        | Option.none => Option.none
        | some true => si_loop fuel rxRest ns
        | some false => some (some [])

/-- inline_matches of validator.rs: dispatch on the element category of
the prescription inline. -/
def inline_matches : Nat → Node → Node → Option Bool
  | 0, _, _ => Option.none
  | fuel + 1, rx, node =>
    match elementType rx.ty with
    | .inlineLeaf => leaf_inline_matches fuel node rx
    | .inlineContainer => container_inline_matches fuel node rx
    | _ => some false

/-- container_inline_matches of validator.rs: types_match plus recursive
sibling-inline validation of the children. -/
def container_inline_matches : Nat → Node → Node → Option Bool
  | 0, _, _ => Option.none
  | fuel + 1, node, rx =>
    if !types_match node rx then some false
    else
      match validate_sibling_inlines fuel rx node with
      | Option.none => Option.none
      | some (some _) => some false
      | some Option.none => some true

/-- leaf_inline_matches of validator.rs: types_match plus per-node
content validation. -/
def leaf_inline_matches : Nat → Node → Node → Option Bool
  | 0, _, _ => Option.none
  | _ + 1, node, rx =>
    if !types_match node rx then some false
    else
      match validate_node_content node rx with
      | Option.none => Option.none
      | some (some _) => some false
      | some Option.none => some true

end

/-- validate of validator.rs: run sibling-block matching on the two
roots; a Some errors outcome becomes a failing report, None a passing
report; warnings are always absent. -/
def validate (fuel : Nat) (prescriptionRoot documentRoot : Node) :
    Option ValidationReport :=
  match validate_sibling_blocks fuel prescriptionRoot documentRoot with
  | Option.none => Option.none
  | some (some errs) => some ⟨some errs, Option.none⟩
  | some Option.none => some ⟨Option.none, Option.none⟩

/-! ## Definitions transcribing claim language, for comparison -/

/-- Modelled from the spec (claim C2's reading of section 4.6): the
container comparison in which the recursive sibling-block matching
takes the prescription node's children as the prescription side and
the document node's children as the document side.  To be compared
with container_block_matches, which passes the arguments the other way
round. -/
def container_block_matches_claim : Nat → Node → Node → Option Bool
  | 0, _, _ => Option.none
  | fuel + 1, node, rx =>
    if !types_match node rx then some false
    else
      match validate_sibling_blocks fuel rx node with
      | Option.none => Option.none
      | some cv =>
        match cv, rx.wildcard with
        | some _, false => some false
        | _, _ => some true

/-! ## Token-level relations used by the content-matching claims -/

/-- Modelled from the spec: the string form of a prompt token
(PromptToken::to_string of data.rs; spec section 6 gives the marker
notations). -/
def promptString : PromptToken → List Char
  | .mandatory => mandatoryMarker
  | .optional => optionalMarker
  | .literal s => s
  | .none => []

/-- Concatenation of the string forms of a token sequence. -/
def tokenSeqStr (ts : List PromptToken) : List Char :=
  (ts.map promptString).flatten

/-- A substitution for one prompt token: Mandatory prompts are replaced
by a nonempty string, Optional prompts by an arbitrary string, and a
Literal keeps its own content. -/
def TokenSub : PromptToken → List Char → Prop
  | .mandatory, s => s ≠ []
  | .optional, _ => True
  | .literal l, s => s = l
  | .none, _ => False

/-- A literal suitable for the amended round-trip law: nonempty, and
containing neither a dash (so no marker can start inside or across it)
nor whitespace (so trimming leaves it alone). -/
def goodLit (l : List Char) : Bool :=
  !l.isEmpty && l.all fun c => c ≠ '-' && !c.isWhitespace

/-- Token sequences covered by the amended round-trip law: no
PromptToken.None, all literals good, and no two adjacent literals. -/
def goodSeq : List PromptToken → Bool
  | [] => true
  | .mandatory :: rest => goodSeq rest
  | .optional :: rest => goodSeq rest
  | .literal l :: rest =>
    goodLit l &&
      (match rest with
       | .literal _ :: _ => false
       | _ => true) &&
      goodSeq rest
  | .none :: _ => false

/-! ## Concrete fixtures used by witnesses and counterexamples -/

/-- A mandatory paragraph prescription node (no children). -/
def c1Rx : Node :=
  .mk 101 .paragraph 0 0 [] [] [] .mandatory false []

/-- A heading document node, which cannot block-match a paragraph rx. -/
def c1N : Node :=
  .mk 102 .heading 1 0 [] [] [] .mandatory false []

/-- Another heading document node on the bookmark chain. -/
def c1B : Node :=
  .mk 103 .heading 1 0 [] [] [] .mandatory false []

/-- An optional paragraph prescription node. -/
def c2OptPara : Node :=
  .mk 201 .paragraph 0 0 [] [] [] .optional false []

/-- A block-quote prescription node whose only child is an optional
paragraph; not a wildcard. -/
def c2RxC : Node :=
  .mk 202 .blockQuote 0 0 [] [] [] .mandatory false [c2OptPara]

/-- A childless block-quote document node. -/
def c2DocC : Node :=
  .mk 203 .blockQuote 0 0 [] [] [] .mandatory false []

/-- An optional paragraph prescription node (the repeat target). -/
def c3Opt : Node :=
  .mk 301 .paragraph 0 0 [] [] [] .optional false []

/-- A repeat marker prescription node. -/
def c3Marker : Node :=
  .mk 302 .paragraph 0 0 [] [] [] .repeatable false []

/-- A heading document node that never matches the optional paragraph
target. -/
def c3H : Node :=
  .mk 303 .heading 1 0 [] [] [] .mandatory false []

/-- Prescription root: an optional paragraph followed by a repeat
marker. -/
def c3RxRoot : Node :=
  .mk 304 .document 0 0 [] [] [] .mandatory false [c3Opt, c3Marker]

/-- Document root: a single heading. -/
def c3DocRoot : Node :=
  .mk 305 .document 0 0 [] [] [] .mandatory false [c3H]

/-- A prescription node whose match type is None. -/
def c4NoneNode : Node :=
  .mk 401 .paragraph 0 0 [] [] [] .none false []

/-- A text inline with content a. -/
def c8RxText : Node :=
  .mk 801 .text 0 0 ['a'] [] [] .mandatory false []

/-- A paragraph prescription node with one text inline, not a
wildcard. -/
def c8RxPara : Node :=
  .mk 802 .paragraph 0 0 [] [] [] .mandatory false [c8RxText]

/-- A matching document text inline. -/
def c8DocTextA : Node :=
  .mk 803 .text 0 0 ['a'] [] [] .mandatory false []

/-- A surplus document text inline. -/
def c8DocTextB : Node :=
  .mk 804 .text 0 0 ['b'] [] [] .mandatory false []

/-- A paragraph document node with two text inlines: one matching the
prescription inline, one surplus. -/
def c8DocPara : Node :=
  .mk 805 .paragraph 0 0 [] [] [] .mandatory false [c8DocTextA, c8DocTextB]

/-- A childless paragraph document node. -/
def c8DocEmpty : Node :=
  .mk 806 .paragraph 0 0 [] [] [] .mandatory false []

/-- A childless paragraph prescription node. -/
def c8RxEmpty : Node :=
  .mk 807 .paragraph 0 0 [] [] [] .mandatory false []

/-- A childless prescription root. -/
def c9RxRoot : Node :=
  .mk 901 .document 0 0 [] [] [] .mandatory false []

/-- A paragraph document node. -/
def c9DocPara : Node :=
  .mk 902 .paragraph 0 0 [] [] [] .mandatory false []

/-- A document root with one paragraph child. -/
def c9DocRoot : Node :=
  .mk 903 .document 0 0 [] [] [] .mandatory false [c9DocPara]

/-- A paragraph document node that block-matches c1Rx. -/
def c1P : Node :=
  .mk 104 .paragraph 0 0 [] [] [] .mandatory false []

/-! # Theorems -/

/-! ## Helper lemmas about the MatchType.None dispatch arm (claim C4) -/

theorem consume_none_step (fuel : Nat) (rx : Node)
    (rxRest nodeCur bmkCur : List Node) (h : rx.matchType = MatchType.none) :
    consume_block_match (fuel + 1) rx rxRest nodeCur bmkCur =
      some (.state (rx :: rxRest) nodeCur bmkCur) := by
  simp [consume_block_match, h]

theorem sbl_none_div :
    ∀ fuel, sbl_loop fuel [c4NoneNode] [] [] = Option.none := by
  intro fuel
  induction fuel with
  | zero => rfl
  | succ f ih =>
    cases f with
    | zero => rfl
    | succ g =>
      simp only [sbl_loop, consume_none_step (g) c4NoneNode [] [] [] rfl]
      exact ih

/-- Claim C4: whenever the sibling-block matcher dispatches on a
prescription node whose match type is None, the source returns the
state with the prescription cursor UNCHANGED (rx: Some(rx)), so the
enclosing while-loop over prescription siblings makes no progress
and spins forever; the claim (and the spec's advance-rx-only rule) is
violated.  The first conjunct evaluates the dispatch arm: the returned
prescription cursor still starts at rx; the second shows the enclosing
loop diverging at every fuel on a concrete None-typed sibling list. -/
theorem c4_none_no_progress :
    (∀ (fuel : Nat) (rx : Node) (rxRest nodeCur bmkCur : List Node),
      rx.matchType = MatchType.none →
      consume_block_match (fuel + 1) rx rxRest nodeCur bmkCur =
        some (.state (rx :: rxRest) nodeCur bmkCur)) ∧
    (∀ fuel, sbl_loop fuel [c4NoneNode] [] [] = Option.none) :=
  ⟨consume_none_step, sbl_none_div⟩

theorem c4_none_no_progress_witness :
    consume_block_match 1 c4NoneNode [] [] [] =
      some (.state [c4NoneNode] [] []) ∧
    sbl_loop 7 [c4NoneNode] [] [] = Option.none :=
  ⟨c4_none_no_progress.1 0 c4NoneNode [] [] [] rfl, c4_none_no_progress.2 7⟩

/-! ## Helper lemmas for claim C3: an Optional repeat target never fails -/

theorem c3_block_matches_eval :
    ∀ fuel, block_matches fuel c3H c3Opt = Option.none ∨
      block_matches fuel c3H c3Opt = some false := by
  intro fuel
  match fuel with
  | 0 => exact Or.inl rfl
  | 1 => exact Or.inl rfl
  | f + 2 =>
    refine Or.inr ?_
    show leaf_block_matches (f + 1) c3H c3Opt = some false
    simp [leaf_block_matches, types_match, c3H, c3Opt, Node.ty]

theorem c3_optional_step :
    ∀ fuel, consume_optional_block_match fuel c3Opt [] [c3H] = Option.none ∨
      consume_optional_block_match fuel c3Opt [] [c3H] = some ([], [c3H]) := by
  intro fuel
  match fuel with
  | 0 => exact Or.inl rfl
  | f + 1 =>
    rcases c3_block_matches_eval f with h | h
    · exact Or.inl (by simp [consume_optional_block_match, h])
    · exact Or.inr (by simp [consume_optional_block_match, h])

theorem c3_consume_step :
    ∀ fuel, consume_block_match fuel c3Opt [] [c3H] [c3H] = Option.none ∨
      consume_block_match fuel c3Opt [] [c3H] [c3H] =
        some (.state [] [c3H] [c3H]) := by
  intro fuel
  match fuel with
  | 0 => exact Or.inl rfl
  | f + 1 =>
    have hred : consume_block_match (f + 1) c3Opt [] [c3H] [c3H] =
        (match consume_optional_block_match f c3Opt [] [c3H] with
         | Option.none => Option.none
         | some (r, n) => some (MatchResult.state r n [c3H])) := rfl
    rcases c3_optional_step f with h | h
    · exact Or.inl (by rw [hred, h])
    · exact Or.inr (by rw [hred, h])

theorem c3_repeat_loop_div :
    ∀ fuel count outBmk,
      repeat_loop fuel c3Opt [] [c3H] [c3H] count outBmk = Option.none := by
  intro fuel
  induction fuel with
  | zero => intro count outBmk; rfl
  | succ f ih =>
    intro count outBmk
    rcases c3_consume_step f with h | h
    · simp [repeat_loop, h]
    · simp only [repeat_loop, h]
      exact ih (count + 1) _

theorem c3_repeatable_div :
    ∀ fuel,
      consume_repeatable_matches fuel c3Marker [c3Opt] [c3H] [c3H] =
        Option.none := by
  intro fuel
  match fuel with
  | 0 => rfl
  | f + 1 =>
    have hred :
        consume_repeatable_matches (f + 1) c3Marker [c3Opt] [c3H] [c3H] =
        (match repeat_loop f c3Opt [] [c3H] [c3H] 0 [] with
         | Option.none => Option.none
         | some (exitNode, count, outBmk) =>
           match count, c3Opt.matchType with
           | 0, .mandatory => some (.error [])
           | _, _ => some (.state [] exitNode.tail outBmk)) := rfl
    rw [hred, c3_repeat_loop_div f 0 []]

theorem c3_sbl_div :
    ∀ fuel, sbl_loop fuel [c3Marker, c3Opt] [c3H] [c3H] = Option.none := by
  intro fuel
  match fuel with
  | 0 => rfl
  | g + 1 =>
    have hc : consume_block_match g c3Marker [c3Opt] [c3H] [c3H] =
        Option.none := by
      match g with
      | 0 => rfl
      | k + 1 =>
        have hred : consume_block_match (k + 1) c3Marker [c3Opt] [c3H] [c3H] =
            consume_repeatable_matches k c3Marker [c3Opt] [c3H] [c3H] := rfl
        rw [hred]
        exact c3_repeatable_div k
    simp [sbl_loop, hc]

theorem c3_validate_div :
    ∀ fuel, validate fuel c3RxRoot c3DocRoot = Option.none := by
  intro fuel
  match fuel with
  | 0 => rfl
  | f + 1 =>
    have : validate_sibling_blocks (f + 1) c3RxRoot c3DocRoot =
        Option.none := by
      show sbl_loop f [c3Marker, c3Opt] [c3H] [c3H] = Option.none
      exact c3_sbl_div f
    simp [validate, this]

/-- Claim C3: on a prescription whose repeat marker targets an Optional
node that never matches the current document node, the loop of
consume_repeatable_matches never reaches a failing iteration: the
Optional dispatch always returns a success state with the document
cursor unchanged, so the loop runs forever.  In the fuel-indexed
embedding, consume_repeatable_matches and validate exhaust every fuel
on this input, refuting the claim that the loop always terminates. -/
theorem c3_repeatable_divergence :
    (∀ fuel,
      consume_repeatable_matches fuel c3Marker [c3Opt] [c3H] [c3H] =
        Option.none) ∧
    (∀ fuel, validate fuel c3RxRoot c3DocRoot = Option.none) :=
  ⟨c3_repeatable_div, c3_validate_div⟩

/-! ## Claim C1: the mandatory rewind -/

/-- Claim C1: when the current document node is present but does not
block-match the mandatory prescription node rx, the matcher scans via
scan_for_match from the bookmark leftward with the current node as the
stop identity; if a sibling prev is found (the head of the returned
cursor), the new state sets both the document cursor and the bookmark
to prev's previous sibling (the tail of the returned cursor) and
advances the prescription cursor one step leftward; if none is found,
the step fails (a missing-mandatory error, whose diagnostics vector the
source leaves empty, as recorded for claim C9). -/
theorem c1_mandatory_rewind (fuel : Nat) (rx : Node) (rxRest : List Node)
    (n : Node) (ns bmk : List Node)
    (h : block_matches fuel n rx = some false) :
    (∀ found, scan_for_match fuel bmk (some n.id) rx = some (some found) →
      consume_mandatory_block_match (fuel + 1) rx rxRest (n :: ns) bmk =
        some (.state rxRest found.tail found.tail)) ∧
    (scan_for_match fuel bmk (some n.id) rx = some Option.none →
      consume_mandatory_block_match (fuel + 1) rx rxRest (n :: ns) bmk =
        some (.error [])) := by
  constructor
  · intro found hs
    simp [consume_mandatory_block_match, h, hs]
  · intro hs
    simp [consume_mandatory_block_match, h, hs]

theorem c1_mandatory_rewind_witness :
    block_matches 3 c1N c1Rx = some false ∧
    block_matches 5 c1N c1Rx = some false ∧
    consume_mandatory_block_match 4 c1Rx [] [c1N] [c1B] =
      some (.error []) ∧
    consume_mandatory_block_match 6 c1Rx [] [c1N] [c1P] =
      some (.state [] [] []) :=
  ⟨rfl, rfl,
    (c1_mandatory_rewind 3 c1Rx [] c1N [] [c1B] rfl).2 rfl,
    (c1_mandatory_rewind 5 c1Rx [] c1N [] [c1P] rfl).1 [c1P] rfl⟩

/-! ## Claim C2: container comparison swaps the recursion's sides -/

/-- Claim C2 counterexample: a non-wildcard block-quote prescription
whose only child is an optional paragraph, against a childless
block-quote document node.  types_match holds and, reading the claim's
recursion (prescription children as the prescription side), the
children validate, so the claim predicts a match; the code passes
(node, rx) to validate_sibling_blocks, making the document node supply
the prescription side, and reports no match. -/
theorem c2_counterexample :
    container_block_matches 10 c2DocC c2RxC = some false ∧
    container_block_matches_claim 10 c2DocC c2RxC = some true ∧
    types_match c2DocC c2RxC = true ∧
    c2RxC.wildcard = false :=
  ⟨rfl, rfl, rfl, rfl⟩

/-- Claim C2 amended: container_block_matches returns true iff
types_match holds and either rx has the wildcard flag or the recursive
sibling-block run with the DOCUMENT node's children as the prescription
side and the prescription node's children as the document side reports
no errors (whenever that recursive run returns at all). -/
theorem c2_amended (fuel : Nat) (node rx : Node) (cv : Option (List Diag))
    (h : validate_sibling_blocks fuel node rx = some cv) :
    container_block_matches (fuel + 1) node rx =
      some (types_match node rx && (rx.wildcard || cv.isNone)) := by
  show (if !types_match node rx then some false
    else
      match validate_sibling_blocks fuel node rx with
      | Option.none => Option.none
      | some cv =>
        match cv, rx.wildcard with
        | some _, false => some false
        | _, _ => some true) =
      some (types_match node rx && (rx.wildcard || cv.isNone))
  cases ht : types_match node rx
  · simp [ht]
  · cases cv with
    | none => simp [ht, h]
    | some errs =>
      cases hw : rx.wildcard <;> simp [ht, h, hw]

theorem c2_amended_witness :
    validate_sibling_blocks 9 c2DocC c2RxC = some (some []) ∧
    container_block_matches 10 c2DocC c2RxC = some false :=
  ⟨rfl, by simpa using c2_amended 9 c2DocC c2RxC (some []) rfl⟩

/-! ## Claim C8: surplus inline tolerance -/

/-- Claim C8 counterexample: the prescription paragraph's single inline
matches the first document inline, the document has a surplus inline,
and the prescription paragraph is not a wildcard; the claim says the
surplus is tolerated only via the wildcard flag, yet leaf_block_matches
succeeds: validate_sibling_inlines ends as soon as the prescription
inlines are exhausted and never examines remaining document inlines. -/
theorem c8_counterexample :
    leaf_block_matches 10 c8DocPara c8RxPara = some true ∧
    c8RxPara.wildcard = false ∧
    c8RxPara.children.length < c8DocPara.children.length :=
  ⟨rfl, rfl, by decide⟩

/-- Claim C8 amended: in sibling-inline matching, if the document
inlines exhaust while prescription inlines remain, matching fails; if
the prescription inlines exhaust, matching succeeds regardless of any
surplus document inlines — the wildcard flag is not consulted. -/
theorem c8_amended (fuel : Nat) (parentRx parentDoc : Node) :
    (parentRx.children ≠ [] → parentDoc.children = [] →
      validate_sibling_inlines (fuel + 2) parentRx parentDoc =
        some (some [])) ∧
    (parentRx.children = [] →
      validate_sibling_inlines (fuel + 2) parentRx parentDoc =
        some Option.none) := by
  constructor
  · intro h1 h2
    show si_loop (fuel + 1) parentRx.children parentDoc.children =
      some (some [])
    rw [h2]
    cases hc : parentRx.children with
    | nil => exact absurd hc h1
    | cons a t => simp [si_loop]
  · intro h1
    show si_loop (fuel + 1) parentRx.children parentDoc.children =
      some Option.none
    rw [h1]
    rfl

theorem c8_amended_witness :
    c8RxPara.children ≠ [] ∧ c8DocEmpty.children = [] ∧
    validate_sibling_inlines 2 c8RxPara c8DocEmpty = some (some []) ∧
    c8RxEmpty.children = [] ∧
    validate_sibling_inlines 2 c8RxEmpty c8DocPara = some Option.none :=
  ⟨List.cons_ne_nil _ _, rfl,
    (c8_amended 0 c8RxPara c8DocEmpty).1 (List.cons_ne_nil _ _) rfl, rfl,
    (c8_amended 0 c8RxEmpty c8DocPara).2 rfl⟩

/-! ## Claim C9: failing reports can carry an empty diagnostics list -/

/-- Claim C9 is violated by the code: against a childless prescription,
a document with one paragraph takes the superfluous-nodes path, which
returns Some(Vec::new()) (the source's todo), so validate returns a
report whose errors list is present but empty. -/
theorem c9_empty_error_list :
    validate 5 c9RxRoot c9DocRoot = some ⟨some [], Option.none⟩ := rfl

/-! ## Claim C10: warnings are always absent -/

/-- Claim C10: every report returned by validate has an absent warnings
list; both branches of validate construct the report with warnings
None, and no code path attaches a warning. -/
theorem c10_warnings_absent (fuel : Nat) (p d : Node) (r : ValidationReport)
    (h : validate fuel p d = some r) : r.warnings = Option.none := by
  unfold validate at h
  cases hv : validate_sibling_blocks fuel p d with
  | none => rw [hv] at h; exact absurd h (by simp)
  | some cv =>
    rw [hv] at h
    cases cv with
    | none =>
      injection h with h'
      rw [← h']
    | some errs =>
      injection h with h'
      rw [← h']

theorem c10_warnings_absent_witness :
    validate 5 c9RxRoot c9DocRoot = some ⟨some [], Option.none⟩ ∧
    (⟨some [], Option.none⟩ : ValidationReport).warnings = Option.none :=
  ⟨rfl, c10_warnings_absent 5 c9RxRoot c9DocRoot ⟨some [], Option.none⟩ rfl⟩

/-! ## Content-matcher helper lemmas -/

theorem contents_loop_right_concat (fuel : Nat) (T : List PromptToken)
    (p : PromptToken) (q : List Char) (ls rs : List ContentMatchPair) :
    contents_loop (fuel + 1) (T ++ [p]) .right q ls rs =
      match prompt_step .right p q rs with
      | Option.none => Option.none
      | some (q', rs') => contents_loop fuel T .left q' ls rs' := by
  cases T with
  | nil => rfl
  | cons t ts =>
    have h1 : (t :: (ts ++ [p])).getLastD PromptToken.none = p := by
      rw [← List.cons_append]
      exact List.getLastD_concat _ _ _
    have h2 : (t :: (ts ++ [p])).dropLast = t :: ts := by
      rw [← List.cons_append]
      exact List.dropLast_concat
    show contents_loop (fuel + 1) (t :: (ts ++ [p])) .right q ls rs = _
    simp only [contents_loop, h1, h2]

/-- Claim C7: in the match_contents loop, a Mandatory prompt with an
empty content queue pushes (Mandatory, absent) onto the stack of the
current direction; with a nonempty queue it removes exactly one
character from the front (Left) or the back (Right) of the queue and
pushes (Mandatory, that character), then the loop continues with the
direction flipped. -/
theorem c7_mandatory_prompt (fuel : Nat) (T : List PromptToken)
    (q : List Char) (c : Char) (ls rs : List ContentMatchPair) :
    (contents_loop (fuel + 1) (PromptToken.mandatory :: T) .left [] ls rs =
      contents_loop fuel T .right []
        (ls ++ [⟨PromptToken.mandatory, Option.none⟩]) rs) ∧
    (contents_loop (fuel + 1) (PromptToken.mandatory :: T) .left (c :: q)
        ls rs =
      contents_loop fuel T .right q
        (ls ++ [⟨PromptToken.mandatory, some [c]⟩]) rs) ∧
    (contents_loop (fuel + 1) (T ++ [PromptToken.mandatory]) .right [] ls rs =
      contents_loop fuel T .left [] ls
        (rs ++ [⟨PromptToken.mandatory, Option.none⟩])) ∧
    (contents_loop (fuel + 1) (T ++ [PromptToken.mandatory]) .right
        (q ++ [c]) ls rs =
      contents_loop fuel T .left q ls
        (rs ++ [⟨PromptToken.mandatory, some [c]⟩])) := by
  refine ⟨rfl, ?_, ?_, ?_⟩
  · show (match prompt_step .left PromptToken.mandatory (c :: q) ls with
      | Option.none => Option.none
      | some (q', ls') => contents_loop fuel T .right q' ls' rs) = _
    simp [prompt_step]
  · rw [contents_loop_right_concat]
    rfl
  · rw [contents_loop_right_concat]
    have hstep : prompt_step .right PromptToken.mandatory (q ++ [c]) rs =
        some (q, rs ++ [⟨PromptToken.mandatory, some [c]⟩]) := by
      have hne : (q ++ [c]).isEmpty = false := by
        cases q <;> rfl
      have hdl : (q ++ [c]).dropLast = q := List.dropLast_concat
      have hdr : (q ++ [c]).drop ((q ++ [c]).length - 1) = [c] := by
        have : (q ++ [c]).length - 1 = q.length := by simp
        rw [this]
        exact List.drop_left q [c]
      simp [prompt_step, hne, hdl, hdr]
    rw [hstep]

/-! ## Tokenizer lemmas (claim C6) -/

theorem findPrompt_mandatory (r : List Char) :
    findPrompt (mandatoryMarker ++ r) = some (0, PromptToken.mandatory) := rfl

theorem findPrompt_optional (r : List Char) :
    findPrompt (optionalMarker ++ r) = some (0, PromptToken.optional) := rfl

theorem startsWith_marker_false (c : Char) (t m : List Char)
    (hm : ∃ m', m = '-' :: m') (h : ¬(c = '-')) :
    startsWith m (c :: t) = false := by
  obtain ⟨m', rfl⟩ := hm
  show (decide ('-' = c) && startsWith m' t) = false
  rw [decide_eq_false fun hh => h hh.symm]
  rfl

theorem findPrompt_cons_ne (c : Char) (t : List Char) (h : ¬(c = '-')) :
    findPrompt (c :: t) =
      (findPrompt t).map (fun pt => (pt.1 + 1, pt.2)) := by
  show (if startsWith mandatoryMarker (c :: t) then _ else _) = _
  rw [startsWith_marker_false c t mandatoryMarker ⟨_, rfl⟩ h,
    startsWith_marker_false c t optionalMarker ⟨_, rfl⟩ h]
  rfl

theorem findPrompt_no_dash (l : List Char) (h : ∀ c ∈ l, ¬(c = '-')) :
    findPrompt l = Option.none := by
  induction l with
  | nil => rfl
  | cons c t ih =>
    rw [findPrompt_cons_ne c t (h c (by simp)),
      ih fun x hx => h x (by simp [hx])]
    rfl

theorem findPrompt_lit_marker (l r : List Char) (tok : PromptToken)
    (hl : ∀ c ∈ l, ¬(c = '-')) (hr : findPrompt r = some (0, tok)) :
    findPrompt (l ++ r) = some (l.length, tok) := by
  induction l with
  | nil => simpa using hr
  | cons c t ih =>
    rw [List.cons_append, findPrompt_cons_ne c _ (hl c (by simp)),
      ih fun x hx => hl x (by simp [hx])]
    rfl

theorem dropWhile_ws_eq_self (l : List Char)
    (h : ∀ c ∈ l, c.isWhitespace = false) :
    l.dropWhile Char.isWhitespace = l := by
  cases l with
  | nil => rfl
  | cons a t => simp [List.dropWhile, h a (by simp)]

theorem trim_eq_self (l : List Char)
    (h : ∀ c ∈ l, c.isWhitespace = false) : trim l = l := by
  unfold trim
  rw [dropWhile_ws_eq_self l h,
    dropWhile_ws_eq_self l.reverse
      fun c hc => h c (List.mem_reverse.mp hc),
    List.reverse_reverse]

theorem tokenSeqStr_cons (t : PromptToken) (S : List PromptToken) :
    tokenSeqStr (t :: S) = promptString t ++ tokenSeqStr S := by
  simp [tokenSeqStr]

theorem tokenSeqStr_no_ws (S : List PromptToken) (h : goodSeq S = true) :
    ∀ c ∈ tokenSeqStr S, c.isWhitespace = false := by
  induction S with
  | nil => intro c hc; simp [tokenSeqStr] at hc
  | cons t S' ih =>
    intro c hc
    rw [tokenSeqStr_cons] at hc
    rcases List.mem_append.mp hc with hc' | hc'
    · match t, h with
      | .mandatory, h =>
        simp [promptString, mandatoryMarker] at hc'
        rcases hc' with rfl | rfl | rfl | rfl <;> decide
      | .optional, h =>
        simp [promptString, optionalMarker] at hc'
        rcases hc' with rfl | rfl | rfl | rfl <;> decide
      | .literal l, h =>
        have hg : goodLit l = true := by
          have := h
          simp [goodSeq, Bool.and_eq_true] at this
          exact this.1.1
        simp only [goodLit, Bool.and_eq_true, List.all_eq_true] at hg
        have := hg.2 c hc'
        simp [Bool.and_eq_true] at this
        exact this.2
    · have hrest : goodSeq S' = true := by
        match t, h with
        | .mandatory, h => exact h
        | .optional, h => exact h
        | .literal l, h =>
          simp [goodSeq, Bool.and_eq_true] at h
          exact h.2
      exact ih hrest c hc'

theorem goodLit_no_dash (l : List Char) (h : goodLit l = true) :
    ∀ c ∈ l, ¬(c = '-') := by
  intro c hc
  simp only [goodLit, Bool.and_eq_true, List.all_eq_true] at h
  have := h.2 c hc
  simp [Bool.and_eq_true] at this
  exact this.1

theorem tokenizeLoop_marker_step (f : Nat) (m R : List Char)
    (tok : PromptToken) (hfind : findPrompt (m ++ R) = some (0, tok))
    (hmlen : m.length = 4) (hmne : (m ++ R).isEmpty = false) :
    tokenizeLoop (f + 1) (m ++ R) = tok :: tokenizeLoop f R := by
  rw [tokenizeLoop, hmne, hfind]
  have hdrop : (m ++ R).drop 4 = R := by
    rw [show 4 = m.length by omega]
    exact List.drop_left m R
  simp [hdrop]

theorem tokenizeLoop_lit_marker_step (f : Nat) (l m R : List Char)
    (tok : PromptToken) (hlne : l ≠ [])
    (hnodash : ∀ c ∈ l, ¬(c = '-'))
    (hfind : findPrompt (m ++ R) = some (0, tok)) (hmlen : m.length = 4) :
    tokenizeLoop (f + 1) (l ++ (m ++ R)) =
      PromptToken.literal l :: tok :: tokenizeLoop f R := by
  have hne : (l ++ (m ++ R)).isEmpty = false := by
    cases l with
    | nil => exact absurd rfl hlne
    | cons a t => rfl
  rw [tokenizeLoop, hne,
    findPrompt_lit_marker l (m ++ R) tok hnodash hfind]
  have hpos : 0 < l.length := List.length_pos.mpr hlne
  have hdrop : (l ++ (m ++ R)).drop (l.length + 4) = R := by
    rw [← List.append_assoc, show l.length + 4 = (l ++ m).length by
      simp [List.length_append, hmlen]]
    exact List.drop_left (l ++ m) R
  simp [hpos, hdrop, List.take_left]

theorem tokenizeLoop_lit_end (f : Nat) (l : List Char) (hlne : l ≠ [])
    (hnodash : ∀ c ∈ l, ¬(c = '-')) :
    tokenizeLoop (f + 1) l = [PromptToken.literal l] := by
  have hne : l.isEmpty = false := by
    cases l with
    | nil => exact absurd rfl hlne
    | cons a t => rfl
  rw [tokenizeLoop, hne, findPrompt_no_dash l hnodash]
  simp

theorem goodSeq_lit_parts (l : List Char) (S : List PromptToken)
    (h : goodSeq (.literal l :: S) = true) :
    goodLit l = true ∧ goodSeq S = true := by
  simp only [goodSeq, Bool.and_eq_true] at h
  exact ⟨h.1.1, h.2⟩

theorem goodLit_ne_nil (l : List Char) (h : goodLit l = true) : l ≠ [] := by
  simp only [goodLit, Bool.and_eq_true] at h
  simpa [List.isEmpty_iff] using h.1

theorem tokenizeLoop_good :
    ∀ fuel (S : List PromptToken), goodSeq S = true →
      (tokenSeqStr S).length < fuel →
      tokenizeLoop fuel (tokenSeqStr S) = S := by
  intro fuel
  induction fuel with
  | zero => intro S _ hlen; omega
  | succ f ih =>
    intro S hgood hlen
    cases S with
    | nil => rfl
    | cons t S' =>
      rw [tokenSeqStr_cons] at hlen ⊢
      cases t with
      | mandatory =>
        show tokenizeLoop (f + 1) (mandatoryMarker ++ tokenSeqStr S') = _
        rw [tokenizeLoop_marker_step f _ _ _ (findPrompt_mandatory _) rfl rfl,
          ih S' hgood (by simp [promptString, mandatoryMarker] at hlen; omega)]
      | optional =>
        show tokenizeLoop (f + 1) (optionalMarker ++ tokenSeqStr S') = _
        rw [tokenizeLoop_marker_step f _ _ _ (findPrompt_optional _) rfl rfl,
          ih S' hgood (by simp [promptString, optionalMarker] at hlen; omega)]
      | none => exact absurd hgood (by simp [goodSeq])
      | literal l =>
        obtain ⟨hlit, hrest⟩ := goodSeq_lit_parts l S' hgood
        have hlne := goodLit_ne_nil l hlit
        have hnodash := goodLit_no_dash l hlit
        cases S' with
        | nil =>
          show tokenizeLoop (f + 1) (l ++ tokenSeqStr []) = _
          rw [show tokenSeqStr ([] : List PromptToken) = [] from rfl,
            List.append_nil]
          exact tokenizeLoop_lit_end f l hlne hnodash
        | cons t2 S'' =>
          rw [tokenSeqStr_cons] at hlen ⊢
          cases t2 with
          | mandatory =>
            show tokenizeLoop (f + 1)
              (l ++ (mandatoryMarker ++ tokenSeqStr S'')) = _
            rw [tokenizeLoop_lit_marker_step f l _ _ _ hlne hnodash
              (findPrompt_mandatory _) rfl,
              ih S'' hrest (by
                simp [promptString, mandatoryMarker, List.length_append] at hlen
                omega)]
          | optional =>
            show tokenizeLoop (f + 1)
              (l ++ (optionalMarker ++ tokenSeqStr S'')) = _
            rw [tokenizeLoop_lit_marker_step f l _ _ _ hlne hnodash
              (findPrompt_optional _) rfl,
              ih S'' hrest (by
                simp [promptString, optionalMarker, List.length_append] at hlen
                omega)]
          | literal l2 =>
            exfalso
            simp [goodSeq, Bool.and_eq_true] at hgood
          | none =>
            exfalso
            simp [goodSeq, Bool.and_eq_true] at hrest

/-- Claim C6 counterexample: two adjacent nonempty Literal tokens are a
sequence of prompt tokens in the claim's sense, but concatenating their
string forms and tokenizing yields a single merged Literal, not the
original sequence. -/
theorem c6_counterexample :
    tokenize_prompts
        (tokenSeqStr [PromptToken.literal ['a'], PromptToken.literal ['b']]) ≠
      [PromptToken.literal ['a'], PromptToken.literal ['b']] ∧
    tokenize_prompts
        (tokenSeqStr [PromptToken.literal ['a'], PromptToken.literal ['b']]) =
      [PromptToken.literal ['a', 'b']] := by
  exact ⟨by decide, rfl⟩

/-- Claim C6 amended: the tokenizer round-trip law holds for token
sequences without PromptToken.None in which no two Literal tokens are
adjacent and every Literal is nonempty and contains neither a dash nor
whitespace (so no marker can arise inside or across a literal and
trimming leaves the concatenation unchanged): concatenating the string
forms and applying tokenize_prompts yields exactly the sequence. -/
theorem c6_roundtrip_amended (S : List PromptToken)
    (h : goodSeq S = true) :
    tokenize_prompts (tokenSeqStr S) = S := by
  unfold tokenize_prompts
  rw [trim_eq_self _ (tokenSeqStr_no_ws S h)]
  exact tokenizeLoop_good _ S h (by omega)

/-! ## Content-match soundness helper lemmas (claim C5) -/

theorem startsWith_append_self (s r : List Char) :
    startsWith s (s ++ r) = true := by
  induction s with
  | nil => rfl
  | cons a t ih => simp [startsWith, ih]

theorem isEmpty_false_of_ne_nil {l : List Char} (h : l ≠ []) :
    l.isEmpty = false := by
  cases l with
  | nil => exact absurd rfl h
  | cons a t => rfl

theorem strFind_found (s : List Char) :
    ∀ (q : List Char) (m : Nat), startsWith s (q.drop m) = true →
      ∃ p, strFind q s = some p ∧ p ≤ m ∧
        startsWith s (q.drop p) = true := by
  intro q
  induction q with
  | nil =>
    intro m h
    rw [List.drop_nil] at h
    exact ⟨0, by simp [strFind, h], Nat.zero_le m, by simpa using h⟩
  | cons a t ih =>
    intro m h
    cases hc : startsWith s (a :: t) with
    | true =>
      exact ⟨0, by simp [strFind, hc], Nat.zero_le m, by simpa using hc⟩
    | false =>
      cases m with
      | zero =>
        rw [List.drop_zero] at h
        simp [h] at hc
      | succ m' =>
        rw [List.drop_succ_cons] at h
        obtain ⟨p, hp, hle, hocc⟩ := ih m' h
        exact ⟨p + 1, by simp [strFind, hc, hp], by omega,
          by simpa using hocc⟩

theorem strRFind_sound (s : List Char) :
    ∀ (q : List Char) (p : Nat), strRFind q s = some p →
      startsWith s (q.drop p) = true := by
  intro q
  induction q with
  | nil =>
    intro p hp
    cases hsw : startsWith s [] with
    | true =>
      simp [strRFind, hsw] at hp
      subst hp
      simpa using hsw
    | false => simp [strRFind, hsw] at hp
  | cons a t ih =>
    intro p hp
    cases hrec : strRFind t s with
    | some p' =>
      simp [strRFind, hrec] at hp
      subst hp
      simpa using ih p' hrec
    | none =>
      cases hsw : startsWith s (a :: t) with
      | true =>
        simp [strRFind, hrec, hsw] at hp
        subst hp
        simpa using hsw
      | false => simp [strRFind, hrec, hsw] at hp

theorem strRFind_found (s : List Char) :
    ∀ (q : List Char) (m : Nat), m ≤ q.length →
      startsWith s (q.drop m) = true →
      ∃ p, strRFind q s = some p ∧ m ≤ p := by
  intro q
  induction q with
  | nil =>
    intro m hm h
    have hm0 : m = 0 := by simpa using hm
    subst hm0
    rw [List.drop_nil] at h
    exact ⟨0, by simp [strRFind, h], le_rfl⟩
  | cons a t ih =>
    intro m hm h
    cases hrec : strRFind t s with
    | some p' =>
      refine ⟨p' + 1, by simp [strRFind, hrec], ?_⟩
      cases m with
      | zero => omega
      | succ m' =>
        rw [List.drop_succ_cons] at h
        have hm' : m' ≤ t.length := by simpa using hm
        obtain ⟨p'', hp'', hge⟩ := ih m' hm' h
        rw [hrec] at hp''
        injection hp'' with he
        omega
    | none =>
      cases m with
      | zero =>
        rw [List.drop_zero] at h
        exact ⟨0, by simp [strRFind, hrec, h], le_rfl⟩
      | succ m' =>
        rw [List.drop_succ_cons] at h
        have hm' : m' ≤ t.length := by simpa using hm
        obtain ⟨p'', hp'', _⟩ := ih m' hm' h
        rw [hrec] at hp''
        exact absurd hp'' (by simp)

theorem containsMismatch_append (a b : List ContentMatchPair) :
    containsMismatch (a ++ b) =
      (containsMismatch a || containsMismatch b) :=
  List.any_append

theorem containsMismatch_push_ok (st : List ContentMatchPair)
    (pr : ContentMatchPair) (h : containsMismatch st = false)
    (hp : isMismatchPair pr = false) :
    containsMismatch (st ++ [pr]) = false := by
  rw [containsMismatch_append, h]
  simp [containsMismatch, hp]

theorem pushLit_no_mismatch (st : List ContentMatchPair)
    (pre : Option (List Char)) (content sub : List Char)
    (h : containsMismatch st = false) :
    containsMismatch (pushLit st pre content sub) = false := by
  unfold pushLit
  cases pre with
  | none => exact containsMismatch_push_ok st _ h rfl
  | some p =>
    cases hpa : prefaceAllowed st with
    | true =>
      show containsMismatch ((st ++ [⟨PromptToken.none, some p⟩]) ++
        [⟨PromptToken.literal content, some sub⟩]) = false
      exact containsMismatch_push_ok _ _
        (containsMismatch_push_ok st _ h rfl) rfl
    | false =>
      show containsMismatch (st ++
        [⟨PromptToken.literal content, some sub⟩]) = false
      exact containsMismatch_push_ok st _ h rfl

theorem forall₂_concat_inv {α β : Type} {r : α → β → Prop} :
    ∀ (T : List α) (t : α) (ys : List β),
      List.Forall₂ r (T ++ [t]) ys →
      ∃ ys0 y, ys = ys0 ++ [y] ∧ List.Forall₂ r T ys0 ∧ r t y := by
  intro T
  induction T with
  | nil =>
    intro t ys h
    cases h with
    | cons h1 h2 =>
      cases h2
      exact ⟨[], _, rfl, List.Forall₂.nil, h1⟩
  | cons a T' ih =>
    intro t ys h
    cases h with
    | cons h1 h2 =>
      obtain ⟨ys0, y, rfl, hf, hr⟩ := ih t _ h2
      exact ⟨_ :: ys0, y, rfl, List.Forall₂.cons h1 hf, hr⟩

theorem contents_loop_left_step (fuel : Nat) (p : PromptToken)
    (ps : List PromptToken) (q : List Char)
    (ls rs : List ContentMatchPair) (q' : List Char)
    (ls' : List ContentMatchPair)
    (h : prompt_step .left p q ls = some (q', ls')) :
    contents_loop (fuel + 1) (p :: ps) .left q ls rs =
      contents_loop fuel ps .right q' ls' rs := by
  show (match prompt_step .left p q ls with
    | Option.none => Option.none
    | some (q', ls') => contents_loop fuel ps .right q' ls' rs) = _
  rw [h]

theorem contents_loop_right_step (fuel : Nat) (T : List PromptToken)
    (t : PromptToken) (q : List Char) (ls rs : List ContentMatchPair)
    (q' : List Char) (rs' : List ContentMatchPair)
    (h : prompt_step .right t q rs = some (q', rs')) :
    contents_loop (fuel + 1) (T ++ [t]) .right q ls rs =
      contents_loop fuel T .left q' ls rs' := by
  rw [contents_loop_right_concat, h]

theorem prompt_step_left_mandatory (q : List Char)
    (st : List ContentMatchPair) (hne : q.isEmpty = false) :
    prompt_step .left .mandatory q st =
      some (q.drop 1, st ++ [⟨PromptToken.mandatory, some (q.take 1)⟩]) := by
  simp [prompt_step, hne]

theorem prompt_step_right_mandatory (q : List Char)
    (st : List ContentMatchPair) (hne : q.isEmpty = false) :
    prompt_step .right .mandatory q st =
      some (q.dropLast,
        st ++ [⟨PromptToken.mandatory, some (q.drop (q.length - 1))⟩]) := by
  simp [prompt_step, hne]

theorem prompt_step_left_literal (q content : List Char)
    (st : List ContentMatchPair) (n : Nat)
    (hf : strFind q content = some n) :
    prompt_step .left (.literal content) q st =
      some (q.drop (n + content.length),
        pushLit st (if 0 < n then some (q.take n) else Option.none)
          content ((q.drop n).take content.length)) := by
  simp [prompt_step, hf]

theorem prompt_step_right_literal (q content : List Char)
    (st : List ContentMatchPair) (n : Nat)
    (hf : strRFind q content = some n) :
    prompt_step .right (.literal content) q st =
      some (q.take n,
        pushLit st
          (if content.length < (q.drop n).length then
            some ((q.drop n).drop content.length)
           else Option.none)
          content ((q.drop n).take content.length)) := by
  simp [prompt_step, hf]

/-- The two-stack loop invariant: when the content queue consists of a
substitution instance of the remaining prompts surrounded by arbitrary
junk on both sides, the loop completes without pushing any mismatch
pair.  The junk absorbs the leftovers of earlier consumptions on each
side. -/
theorem contents_loop_sound :
    ∀ (fuel : Nat) (T : List PromptToken) (subs : List (List Char))
      (dir : MatchDirection) (X Y : List Char)
      (ls rs : List ContentMatchPair),
      T.length ≤ fuel → List.Forall₂ TokenSub T subs →
      containsMismatch ls = false → containsMismatch rs = false →
      ∃ q ls' rs',
        contents_loop fuel T dir (X ++ subs.flatten ++ Y) ls rs =
          some (q, ls', rs') ∧
        containsMismatch ls' = false ∧ containsMismatch rs' = false := by
  intro fuel
  induction fuel with
  | zero =>
    intro T subs dir X Y ls rs hlen hsub hls hrs
    have hT : T = [] := List.length_eq_zero.mp (Nat.le_zero.mp hlen)
    subst hT
    cases hsub
    exact ⟨_, _, _, rfl, hls, hrs⟩
  | succ fuel ih =>
    intro T subs dir X Y ls rs hlen hsub hls hrs
    cases T with
    | nil =>
      cases hsub
      exact ⟨_, _, _, rfl, hls, hrs⟩
    | cons p ps =>
      have hlen' : ps.length ≤ fuel := by
        simp only [List.length_cons] at hlen
        omega
      cases dir with
      | left =>
        cases hsub with
        | cons h1 h2 =>
          rename_i s subs'
          cases p with
          | mandatory =>
            have hsne : s ≠ [] := h1
            have hqe : X ++ (s :: subs').flatten ++ Y =
                (X ++ s) ++ (subs'.flatten ++ Y) := by
              simp [List.flatten_cons, List.append_assoc]
            have hne : ((X ++ s) ++ (subs'.flatten ++ Y)).isEmpty = false := by
              apply isEmpty_false_of_ne_nil
              intro hcontra
              rw [List.append_eq_nil] at hcontra
              rcases hcontra with ⟨hxs, _⟩
              rw [List.append_eq_nil] at hxs
              exact hsne hxs.2
            have hstep := prompt_step_left_mandatory _ ls hne
            have hdrop : ((X ++ s) ++ (subs'.flatten ++ Y)).drop 1 =
                ((X ++ s).drop 1) ++ subs'.flatten ++ Y := by
              rw [List.drop_append_of_le_length (by
                have := List.length_pos.mpr hsne
                simp only [List.length_append]
                omega), ← List.append_assoc]
            rw [hqe, contents_loop_left_step fuel _ ps _ ls rs _ _ hstep,
              hdrop]
            exact ih ps subs' .right ((X ++ s).drop 1) Y _ rs hlen' h2
              (containsMismatch_push_ok ls _ hls rfl) hrs
          | optional =>
            have hqe : X ++ (s :: subs').flatten ++ Y =
                (X ++ s) ++ subs'.flatten ++ Y := by
              simp [List.flatten_cons, List.append_assoc]
            have hstep : prompt_step .left .optional
                ((X ++ s) ++ subs'.flatten ++ Y) ls =
                some ((X ++ s) ++ subs'.flatten ++ Y,
                  ls ++ [⟨PromptToken.optional, Option.none⟩]) := rfl
            rw [hqe, contents_loop_left_step fuel _ ps _ ls rs _ _ hstep]
            exact ih ps subs' .right (X ++ s) Y _ rs hlen' h2
              (containsMismatch_push_ok ls _ hls rfl) hrs
          | literal content =>
            have hsc : s = content := h1
            subst hsc
            have hqe : X ++ (s :: subs').flatten ++ Y =
                X ++ (s ++ (subs'.flatten ++ Y)) := by
              simp [List.flatten_cons, List.append_assoc]
            have hocc : startsWith s
                ((X ++ (s ++ (subs'.flatten ++ Y))).drop X.length) = true := by
              rw [List.drop_left]
              exact startsWith_append_self s _
            obtain ⟨n, hfind, hle, _⟩ := strFind_found s _ X.length hocc
            have hstep := prompt_step_left_literal _ s ls n hfind
            have hnle : n + s.length ≤ (X ++ s).length := by
              simp only [List.length_append]
              omega
            have hdrop :
                (X ++ (s ++ (subs'.flatten ++ Y))).drop (n + s.length) =
                ((X ++ s).drop (n + s.length)) ++ subs'.flatten ++ Y := by
              rw [show X ++ (s ++ (subs'.flatten ++ Y)) =
                  (X ++ s) ++ (subs'.flatten ++ Y) by
                simp [List.append_assoc]]
              rw [List.drop_append_of_le_length hnle, ← List.append_assoc]
            rw [hqe, contents_loop_left_step fuel _ ps _ ls rs _ _ hstep,
              hdrop]
            exact ih ps subs' .right ((X ++ s).drop (n + s.length)) Y _ rs
              hlen' h2 (pushLit_no_mismatch ls _ s _ hls) hrs
          | none => exact h1.elim
      | right =>
        obtain ⟨T0, t, hT⟩ : ∃ T0 t, p :: ps = T0 ++ [t] := by
          rcases List.eq_nil_or_concat (p :: ps) with habs | ⟨L, b, hLb⟩
          · exact absurd habs (by simp)
          · exact ⟨L, b, by simpa [List.concat_eq_append] using hLb⟩
        rw [hT] at hsub hlen ⊢
        obtain ⟨subs0, s, rfl, hf, hts⟩ := forall₂_concat_inv T0 t subs hsub
        have hlen0 : T0.length ≤ fuel := by
          simp only [List.length_append, List.length_cons,
            List.length_nil] at hlen
          omega
        have hflat : (subs0 ++ [s]).flatten = subs0.flatten ++ s := by
          simp
        cases t with
        | mandatory =>
          have hsne : s ≠ [] := hts
          have hqe : X ++ (subs0 ++ [s]).flatten ++ Y =
              (X ++ subs0.flatten) ++ (s ++ Y) := by
            rw [hflat]
            simp [List.append_assoc]
          have hne : ((X ++ subs0.flatten) ++ (s ++ Y)).isEmpty = false := by
            apply isEmpty_false_of_ne_nil
            intro hcontra
            rw [List.append_eq_nil] at hcontra
            rcases hcontra with ⟨_, hsy⟩
            rw [List.append_eq_nil] at hsy
            exact hsne hsy.1
          have hstep := prompt_step_right_mandatory _ rs hne
          have hdl : ((X ++ subs0.flatten) ++ (s ++ Y)).dropLast =
              X ++ subs0.flatten ++ (s ++ Y).dropLast :=
            List.dropLast_append_of_ne_nil _ (by
              intro hc
              rw [List.append_eq_nil] at hc
              exact hsne hc.1)
          rw [hqe, contents_loop_right_step fuel T0 _ _ ls rs _ _ hstep,
            hdl]
          exact ih T0 subs0 .left X ((s ++ Y).dropLast) ls _ hlen0 hf hls
            (containsMismatch_push_ok rs _ hrs rfl)
        | optional =>
          have hqe : X ++ (subs0 ++ [s]).flatten ++ Y =
              X ++ subs0.flatten ++ (s ++ Y) := by
            rw [hflat]
            simp [List.append_assoc]
          have hstep : prompt_step .right .optional
              (X ++ subs0.flatten ++ (s ++ Y)) rs =
              some (X ++ subs0.flatten ++ (s ++ Y),
                rs ++ [⟨PromptToken.optional, Option.none⟩]) := rfl
          rw [hqe, contents_loop_right_step fuel T0 _ _ ls rs _ _ hstep]
          exact ih T0 subs0 .left X (s ++ Y) ls _ hlen0 hf hls
            (containsMismatch_push_ok rs _ hrs rfl)
        | literal content =>
          have hsc : s = content := hts
          subst hsc
          have hqe : X ++ (subs0 ++ [s]).flatten ++ Y =
              (X ++ subs0.flatten) ++ (s ++ Y) := by
            rw [hflat]
            simp [List.append_assoc]
          have hocc : startsWith s
              (((X ++ subs0.flatten) ++ (s ++ Y)).drop
                (X ++ subs0.flatten).length) = true := by
            rw [List.drop_left]
            exact startsWith_append_self s Y
          have hmle : (X ++ subs0.flatten).length ≤
              ((X ++ subs0.flatten) ++ (s ++ Y)).length := by
            simp [List.length_append]
          obtain ⟨n, hfind, hge⟩ := strRFind_found s _ _ hmle hocc
          have hstep := prompt_step_right_literal _ s rs n hfind
          have htake : ((X ++ subs0.flatten) ++ (s ++ Y)).take n =
              X ++ subs0.flatten ++
                ((s ++ Y).take (n - (X ++ subs0.flatten).length)) := by
            rw [List.take_append_eq_append_take, List.take_of_length_le hge]
          rw [hqe, contents_loop_right_step fuel T0 _ _ ls rs _ _ hstep,
            htake]
          exact ih T0 subs0 .left X
            ((s ++ Y).take (n - (X ++ subs0.flatten).length)) ls _ hlen0 hf
            hls (pushLit_no_mismatch rs _ s _ hrs)
        | none => exact hts.elim

theorem c6_roundtrip_amended_witness :
    goodSeq [PromptToken.literal ['a'], PromptToken.mandatory,
      PromptToken.literal ['b']] = true ∧
    tokenize_prompts (tokenSeqStr [PromptToken.literal ['a'],
      PromptToken.mandatory, PromptToken.literal ['b']]) =
      [PromptToken.literal ['a'], PromptToken.mandatory,
        PromptToken.literal ['b']] :=
  ⟨by decide,
    c6_roundtrip_amended
      [PromptToken.literal ['a'], PromptToken.mandatory,
        PromptToken.literal ['b']] (by decide)⟩

/-- Claim C5: content match soundness.  If the document content string
is a substitution instance of the prescription's prompt tokens —
each Mandatory prompt replaced by a nonempty string, each Optional
prompt by an arbitrary (possibly empty) string, each Literal kept
verbatim — then match_contents returns a pair sequence with no
mismatch: no (Mandatory, absent) and no (Literal, absent) pair. -/
theorem c5_content_match_soundness (rxContent doc : List Char)
    (subs : List (List Char))
    (hsub : List.Forall₂ TokenSub (tokenize_prompts rxContent) subs)
    (hdoc : doc = subs.flatten) :
    ∃ ps, match_contents doc rxContent = some ps ∧
      containsMismatch ps = false := by
  subst hdoc
  unfold match_contents match_contents_tokens
  obtain ⟨q, ls', rs', hloop, hl, hr⟩ :=
    contents_loop_sound (tokenize_prompts rxContent).length
      (tokenize_prompts rxContent) subs .left [] [] [] [] le_rfl hsub rfl
      rfl
  rw [show ([] : List Char) ++ subs.flatten ++ [] = subs.flatten by
    simp] at hloop
  rw [hloop]
  refine ⟨_, rfl, ?_⟩
  cases hres : (!q.isEmpty && (lastLit ls' && lastLit rs')) with
  | false =>
    rw [if_neg (by simp [hres])]
    rw [containsMismatch_append, hl, hr]
    rfl
  | true =>
    rw [if_pos (by simp [hres])]
    rw [containsMismatch_append,
      containsMismatch_push_ok ls' ⟨PromptToken.none, some q⟩ hl rfl, hr]
    rfl

theorem c5_content_match_soundness_witness :
    List.Forall₂ TokenSub
      (tokenize_prompts ['a', '-', '!', '!', '-', 'b'])
      [['a'], ['x'], ['b']] ∧
    (['a', 'x', 'b'] : List Char) = [['a'], ['x'], ['b']].flatten ∧
    ∃ ps, match_contents ['a', 'x', 'b'] ['a', '-', '!', '!', '-', 'b'] =
      some ps ∧ containsMismatch ps = false := by
  have hf : List.Forall₂ TokenSub
      (tokenize_prompts ['a', '-', '!', '!', '-', 'b'])
      [['a'], ['x'], ['b']] := by
    show List.Forall₂ TokenSub
      [PromptToken.literal ['a'], PromptToken.mandatory,
        PromptToken.literal ['b']] [['a'], ['x'], ['b']]
    exact List.Forall₂.cons rfl
      (List.Forall₂.cons (List.cons_ne_nil 'x' [])
        (List.Forall₂.cons rfl List.Forall₂.nil))
  exact ⟨hf, rfl,
    c5_content_match_soundness ['a', '-', '!', '!', '-', 'b']
      ['a', 'x', 'b'] [['a'], ['x'], ['b']] hf rfl⟩

end Howser
